import Mathlib

/-!
Shallow embedding of `spriter` (src/main.py, src/shaders.py):
an emoji-sprite demo that arranges sprites into grid / swirl / torus /
sphere layouts, composes per-frame node and idle animations on top of the
layout's base transforms, and selects a single full-screen post-process
shader (grayscale / sepia).  Python floats are modelled as real numbers,
Python strings as `String` (mode / pattern / key names) or `List Char`
(file names and paths), and the engine's `look_at` orientation routine as
an abstract function parameter.
-/

namespace Spriter

/-- 3-component vector (Ursina `Vec3`), components as reals. -/
structure V3 where
  x : ℝ
  y : ℝ
  z : ℝ

theorem V3.ext_iff' (a b : V3) : a = b ↔ a.x = b.x ∧ a.y = b.y ∧ a.z = b.z := by
  constructor
  · intro h; subst h; exact ⟨rfl, rfl, rfl⟩
  · intro ⟨h1, h2, h3⟩; cases a; cases b; simp_all

def V3.add (a b : V3) : V3 := ⟨a.x + b.x, a.y + b.y, a.z + b.z⟩

noncomputable def V3.smul (r : ℝ) (a : V3) : V3 := ⟨r * a.x, r * a.y, r * a.z⟩

def uniformV3 (v : ℝ) : V3 := ⟨v, v, v⟩

/-- Sprite color as used by the program (`color.white`, `color.red`). -/
inductive SpriteColor
  | white
  | red
deriving DecidableEq

/-- One renderable sprite entity, with the extra attributes `main.py` tacks
onto it (`base_scale_val`, `base_scale`, `base_position`, `base_rotation_z`,
`animation_phase_offset`).  `hasBaseScaleVal` models Python's
`hasattr(sprite, 'base_scale_val')`. -/
structure Sprite where
  position : V3
  scale : V3
  rotation : V3
  billboard : Bool
  visible : Bool
  texture : Option (List Char)
  spriteColor : SpriteColor
  entityName : List Char
  hasBaseScaleVal : Bool
  baseScaleVal : ℝ
  baseScale : V3
  basePosition : V3
  baseRotationZ : ℝ
  phaseOffset : ℝ

/-- Global animation parameters of `EmojiApp` read by the per-frame update. -/
structure Config where
  idle_rotation_enabled : Bool
  idle_zoom_enabled : Bool
  idle_rotation_pattern : String
  idle_zoom_pattern : String
  idle_rotation_speed : ℝ
  idle_zoom_amplitude : ℝ
  idle_zoom_speed_factor : ℝ
  node_animation_enabled : Bool
  node_animation_type : String
  node_anim_amplitude : ℝ
  node_anim_frequency : ℝ
  node_anim_speed : ℝ

/-! ## Animation compositor (`apply_idle_animations`, `apply_node_animations`, `update`) -/

/-- Idle-rotation step of `apply_idle_animations` (main.py lines 277-283). -/
noncomputable def idleRotStep (cfg : Config) (t dt : ℝ) (s : Sprite) : Sprite :=
  if cfg.idle_rotation_enabled then
    let factor : ℝ :=
      if cfg.idle_rotation_pattern = "sin" then
        Real.sin (t * cfg.idle_zoom_speed_factor + s.phaseOffset)
      else if cfg.idle_rotation_pattern = "pulse" then
        |Real.sin (t * cfg.idle_zoom_speed_factor + s.phaseOffset)|
      else if cfg.idle_rotation_pattern = "ramp" then
        (Real.sin (t * cfg.idle_zoom_speed_factor + s.phaseOffset) + 1) / 2
      else 1
    if s.billboard then
      { s with rotation :=
          ⟨s.rotation.x, s.rotation.y, s.rotation.z + cfg.idle_rotation_speed * factor * dt⟩ }
    else
      { s with rotation :=
          ⟨s.rotation.x, s.rotation.y + cfg.idle_rotation_speed * factor * dt, s.rotation.z⟩ }
  else s

/-- The zoom multiplier `zoom_val` of `apply_idle_animations` (lines 286-289). -/
noncomputable def idleZoomVal (cfg : Config) (t phase : ℝ) : ℝ :=
  if cfg.idle_zoom_pattern = "sin" then
    1 + cfg.idle_zoom_amplitude * Real.sin (t * cfg.idle_zoom_speed_factor * 1.5 + phase)
  else if cfg.idle_zoom_pattern = "pulse" then
    1 + cfg.idle_zoom_amplitude * |Real.sin (t * cfg.idle_zoom_speed_factor * 1.5 + phase)|
  else if cfg.idle_zoom_pattern = "ramp" then
    1 + cfg.idle_zoom_amplitude * ((Real.sin (t * cfg.idle_zoom_speed_factor * 1.5 + phase) + 1) / 2)
  else 1

/-- Idle-zoom step of `apply_idle_animations` (lines 285-291); guarded by
`idle_zoom_enabled and hasattr(sprite, 'base_scale_val')`. -/
noncomputable def idleZoomStep (cfg : Config) (t : ℝ) (s : Sprite) : Sprite :=
  if cfg.idle_zoom_enabled && s.hasBaseScaleVal then
    let new_scale := s.baseScaleVal * idleZoomVal cfg t s.phaseOffset
    { s with scale := ⟨new_scale, new_scale, if s.billboard then s.baseScale.z else new_scale⟩ }
  else s

/-- `apply_idle_animations` (lines 276-291): rotation step then zoom step. -/
noncomputable def applyIdleAnimations (cfg : Config) (s : Sprite) (t dt : ℝ) : Sprite :=
  idleZoomStep cfg t (idleRotStep cfg t dt s)

/-- `apply_node_animations` (lines 294-315): unconditionally reset position
and (uniform) scale to base, then apply the selected node animation mode. -/
noncomputable def applyNodeAnimations (cfg : Config) (s0 : Sprite) (index : ℕ) (t dt : ℝ) :
    Sprite :=
  let s := { s0 with position := s0.basePosition, scale := uniformV3 s0.baseScaleVal }
  if !cfg.node_animation_enabled || cfg.node_animation_type == "none" then s
  else
    let wave := Real.sin ((index : ℝ) * cfg.node_anim_frequency + t * cfg.node_anim_speed * 2 +
      s.phaseOffset) * cfg.node_anim_amplitude
    if cfg.node_animation_type == "wave_position" then
      let offset : V3 := ⟨wave,
        Real.cos ((index : ℝ) * cfg.node_anim_frequency * 0.7 + t * cfg.node_anim_speed * 1.5 +
          s.phaseOffset) * cfg.node_anim_amplitude, 0⟩
      { s with position := (s.basePosition).add offset }
    else if cfg.node_animation_type == "wave_zoom" then
      let scale_factor := 1 + wave * 0.5
      let clamped_scale := max 0.1 scale_factor
      let new_s := s.baseScaleVal * clamped_scale
      { s with scale := ⟨new_s, new_s, if s.billboard then s.baseScale.z else new_s⟩ }
    else if cfg.node_animation_type == "wave_rotation" then
      if s.billboard then
        { s with rotation := ⟨s.rotation.x, s.rotation.y, s.rotation.z + wave * 30 * dt⟩ }
      else
        { s with rotation := ⟨s.rotation.x, s.rotation.y + wave * 30 * dt, s.rotation.z⟩ }
    else s

/-- Per-sprite body of `update` (lines 318-327): invisible sprites are
skipped; otherwise node animations are applied first, then idle animations. -/
noncomputable def updateSpriteFrame (cfg : Config) (i : ℕ) (t dt : ℝ) (s : Sprite) : Sprite :=
  if s.visible then applyIdleAnimations cfg (applyNodeAnimations cfg s i t dt) t dt else s

/-! ## Layout engine (`setup_sprite_initial_states`, arrangement functions) -/

/-- Index-aware map over a list, the index starting at `k`; used to model the
`for i, sprite in enumerate(...)` loops. -/
def mapIdxGo (f : ℕ → α → α) : ℕ → List α → List α
  | _, [] => []
  | k, a :: as => f k a :: mapIdxGo f (k + 1) as

/-- Index-aware map with the index starting at 0. -/
def mapIdxF (f : ℕ → α → α) (l : List α) : List α := mapIdxGo f 0 l

theorem length_mapIdxGo (f : ℕ → α → α) (k : ℕ) (l : List α) :
    (mapIdxGo f k l).length = l.length := by
  induction l generalizing k with
  | nil => rfl
  | cons a as ih => simp [mapIdxGo, ih]

theorem getElem?_mapIdxGo (f : ℕ → α → α) (k : ℕ) (l : List α) (i : ℕ) :
    (mapIdxGo f k l)[i]? = l[i]?.map (f (k + i)) := by
  induction l generalizing k i with
  | nil => simp [mapIdxGo]
  | cons a as ih =>
    cases i with
    | zero => simp [mapIdxGo]
    | succ j =>
      have h1 : mapIdxGo f k (a :: as) = f k a :: mapIdxGo f (k + 1) as := rfl
      rw [h1, List.getElem?_cons_succ, List.getElem?_cons_succ, ih (k + 1) j]
      have h2 : k + 1 + j = k + (j + 1) := by omega
      rw [h2]

theorem length_mapIdxF (f : ℕ → α → α) (l : List α) :
    (mapIdxF f l).length = l.length := length_mapIdxGo f 0 l

theorem getElem?_mapIdxF (f : ℕ → α → α) (l : List α) (i : ℕ) :
    (mapIdxF f l)[i]? = l[i]?.map (f i) := by
  simpa using getElem?_mapIdxGo f 0 l i

/-- Per-sprite body of `setup_sprite_initial_states` (lines 82-90).  The
`hasattr` guard gives `base_scale_val` a value only if it is not already
present; the base transform snapshot and a fresh random phase (supplied by
the oracle `phases`) are always written. -/
noncomputable def setupSpriteState (phases : ℕ → ℝ) (i : ℕ) (s : Sprite) : Sprite :=
  let s1 :=
    if s.hasBaseScaleVal then s
    else { s with hasBaseScaleVal := true,
                  baseScaleVal :=
                    if s.scale.x = s.scale.y then s.scale.x else max s.scale.x s.scale.y }
  { s1 with baseScale := s.scale,
            basePosition := s.position,
            baseRotationZ := s.rotation.z,
            phaseOffset := phases i }

/-- `setup_sprite_initial_states` over the whole sprite list. -/
noncomputable def setupSpriteInitialStates (phases : ℕ → ℝ) (ss : List Sprite) : List Sprite :=
  mapIdxF (setupSpriteState phases) ss

/-- The ordered row-major `(row, column)` cell sequence traversed by the two
nested loops of `arrange_sprites_grid` (lines 138-139). -/
def gridCells (numRows numCols : ℕ) : List (ℕ × ℕ) :=
  (List.range numRows).flatMap (fun r => (List.range numCols).map (fun c => (r, c)))

/-- The base position assigned to grid cell `(r, c)` (line 144). -/
noncomputable def gridCellPos (numCols numRows : ℕ) (cellSize : ℝ) (r c : ℕ) : V3 :=
  ⟨((c : ℝ) - (numCols : ℝ) / 2 + 0.5) * cellSize,
   ((r : ℝ) - (numRows : ℝ) / 2 + 0.5) * cellSize, 0⟩

/-- Effect of `arrange_sprites_grid` on the sprite at index `i`: placed in
its row-major cell if one exists, hidden otherwise. -/
noncomputable def gridStep (numCols numRows : ℕ) (cellSize emojiScaleVal : ℝ) (i : ℕ)
    (s : Sprite) : Sprite :=
  match (gridCells numRows numCols)[i]? with
  | some rc =>
      let pos := gridCellPos numCols numRows cellSize rc.1 rc.2
      { s with hasBaseScaleVal := true,
               baseScaleVal := emojiScaleVal,
               scale := uniformV3 emojiScaleVal,
               basePosition := pos,
               position := pos,
               visible := true,
               billboard := true,
               rotation := ⟨0, 0, 0⟩ }
  | none => { s with visible := false }

/-- `arrange_sprites_grid` (lines 136-151): sprites are consumed in order by
the row-major cell traversal; sprites left over once the cells (or the list)
run out are hidden. -/
noncomputable def arrangeSpritesGrid (numCols numRows : ℕ) (cellSize emojiScaleVal : ℝ)
    (ss : List Sprite) : List Sprite :=
  mapIdxF (gridStep numCols numRows cellSize emojiScaleVal) ss

/-- `_arrange_3d_pattern` (lines 153-161).  The engine's `look_at` (with
`axis='up'`) is abstracted as a function `lookAt` from the sprite position
and the look-at target to the resulting rotation; the code then adds the
fixed `+90` correction to `rotation_x`. -/
noncomputable def arrange3dPattern (lookAt : V3 → V3 → V3) (s : Sprite) (posVec : V3)
    (scaleVal : ℝ) (lookAtTargetVec : V3) : Sprite :=
  let r := lookAt posVec lookAtTargetVec
  { s with hasBaseScaleVal := true,
           baseScaleVal := scaleVal,
           scale := uniformV3 scaleVal,
           basePosition := posVec,
           position := posVec,
           billboard := false,
           rotation := ⟨r.x + 90, r.y, r.z⟩,
           visible := true }

/-- `Vec3.normalized()`: the unit vector in the direction of `v` (zero on
the zero vector). -/
noncomputable def normalizeV3 (v : V3) : V3 :=
  let m := Real.sqrt (v.x ^ 2 + v.y ^ 2 + v.z ^ 2)
  if m = 0 then ⟨0, 0, 0⟩ else ⟨v.x / m, v.y / m, v.z / m⟩

/-- Position of sprite `i` on the unit swirl (lines 166-167). -/
noncomputable def swirlPos (n : ℕ) (turns radius heightFactor : ℝ) (i : ℕ) : V3 :=
  let t : ℝ := (i : ℝ) / (max 1 (n - 1) : ℕ)
  let angle := t * turns * 2 * Real.pi
  ⟨radius * Real.cos angle, (t - 0.5) * heightFactor, radius * Real.sin angle⟩

/-- Effect of `arrange_sprites_swirl` on the sprite at index `i`. -/
noncomputable def swirlStep (lookAt : V3 → V3 → V3) (numSpritesInPattern : ℕ)
    (turns radius heightFactor emojiScaleVal : ℝ) (i : ℕ) (s : Sprite) : Sprite :=
  if i < numSpritesInPattern then
    let pos := swirlPos numSpritesInPattern turns radius heightFactor i
    arrange3dPattern lookAt s pos emojiScaleVal
      (pos.add (normalizeV3 ⟨pos.x, 0, pos.z⟩))
  else { s with visible := false }

/-- `arrange_sprites_swirl` (lines 163-169). -/
noncomputable def arrangeSpritesSwirl (lookAt : V3 → V3 → V3) (numSpritesInPattern : ℕ)
    (turns radius heightFactor emojiScaleVal : ℝ) (ss : List Sprite) : List Sprite :=
  mapIdxF (swirlStep lookAt numSpritesInPattern turns radius heightFactor emojiScaleVal) ss

/-- Position of sprite `i` on the torus (lines 174-175). -/
noncomputable def torusPos (n : ℕ) (majorR minorR : ℝ) (i : ℕ) : V3 :=
  let u : ℝ := ((i : ℝ) / (n : ℝ)) * 2 * Real.pi
  let v : ℝ := (i : ℝ) * (2 * Real.pi * 5 / (n : ℝ))
  ⟨(majorR + minorR * Real.cos v) * Real.cos u, minorR * Real.sin v,
   (majorR + minorR * Real.cos v) * Real.sin u⟩

/-- Outward surface normal used by the torus arrangement (line 176). -/
noncomputable def torusNormal (n : ℕ) (i : ℕ) : V3 :=
  let u : ℝ := ((i : ℝ) / (n : ℝ)) * 2 * Real.pi
  let v : ℝ := (i : ℝ) * (2 * Real.pi * 5 / (n : ℝ))
  normalizeV3 ⟨Real.cos u * Real.cos v, Real.sin v, Real.sin u * Real.cos v⟩

/-- Effect of `arrange_sprites_torus` on the sprite at index `i`. -/
noncomputable def torusStep (lookAt : V3 → V3 → V3) (numSpritesInPattern : ℕ)
    (majorR minorR emojiScaleVal : ℝ) (i : ℕ) (s : Sprite) : Sprite :=
  if i < numSpritesInPattern then
    let pos := torusPos numSpritesInPattern majorR minorR i
    arrange3dPattern lookAt s pos emojiScaleVal (pos.add (torusNormal numSpritesInPattern i))
  else { s with visible := false }

/-- `arrange_sprites_torus` (lines 171-178). -/
noncomputable def arrangeSpritesTorus (lookAt : V3 → V3 → V3) (numSpritesInPattern : ℕ)
    (majorR minorR emojiScaleVal : ℝ) (ss : List Sprite) : List Sprite :=
  mapIdxF (torusStep lookAt numSpritesInPattern majorR minorR emojiScaleVal) ss

/-- The unit-sphere point for sprite `i` of `n` on the Fibonacci sphere
(lines 184-185): `y` descends evenly from 1 to -1 and the golden angle
`phi = pi*(sqrt 5 - 1)` spreads the longitudes. -/
noncomputable def sphereUnitPos (n : ℕ) (i : ℕ) : V3 :=
  let y_s : ℝ := 1 - ((i : ℝ) / (max 1 (n - 1) : ℕ)) * 2
  let r_s : ℝ := Real.sqrt (max 0 (1 - y_s * y_s))
  let theta : ℝ := (Real.pi * (Real.sqrt 5 - 1)) * (i : ℝ)
  ⟨Real.cos theta * r_s, y_s, Real.sin theta * r_s⟩

/-- Position of sprite `i` in the sphere arrangement (line 186): the unit
point scaled by the sphere radius. -/
noncomputable def spherePos (n : ℕ) (sphereR : ℝ) (i : ℕ) : V3 :=
  V3.smul sphereR (sphereUnitPos n i)

/-- Effect of `arrange_sprites_sphere` on the sprite at index `i`. -/
noncomputable def sphereStep (lookAt : V3 → V3 → V3) (numSpritesInPattern : ℕ)
    (sphereR emojiScaleVal : ℝ) (i : ℕ) (s : Sprite) : Sprite :=
  if i < numSpritesInPattern then
    let pos := spherePos numSpritesInPattern sphereR i
    arrange3dPattern lookAt s pos emojiScaleVal
      (pos.add (normalizeV3 (sphereUnitPos numSpritesInPattern i)))
  else { s with visible := false }

/-- `arrange_sprites_sphere` (lines 180-188). -/
noncomputable def arrangeSpritesSphere (lookAt : V3 → V3 → V3) (numSpritesInPattern : ℕ)
    (sphereR emojiScaleVal : ℝ) (ss : List Sprite) : List Sprite :=
  mapIdxF (sphereStep lookAt numSpritesInPattern sphereR emojiScaleVal) ss

/-- One of the four arrangements together with its shape parameters, as
dispatched through `arrangement_map` / `arrangement_args_map`. -/
inductive Arrangement
  | grid (numCols numRows : ℕ) (cellSize emojiScaleVal : ℝ)
  | swirl (n : ℕ) (turns radius heightFactor emojiScaleVal : ℝ)
  | torus (n : ℕ) (majorR minorR emojiScaleVal : ℝ)
  | sphere (n : ℕ) (sphereR emojiScaleVal : ℝ)

/-- Dispatch an arrangement to its layout function. -/
noncomputable def applyArrangement (lookAt : V3 → V3 → V3) :
    Arrangement → List Sprite → List Sprite
  | .grid numCols numRows cellSize sv, ss => arrangeSpritesGrid numCols numRows cellSize sv ss
  | .swirl n turns radius heightFactor sv, ss =>
      arrangeSpritesSwirl lookAt n turns radius heightFactor sv ss
  | .torus n majorR minorR sv, ss => arrangeSpritesTorus lookAt n majorR minorR sv ss
  | .sphere n sphereR sv, ss => arrangeSpritesSphere lookAt n sphereR sv ss

/-- `_apply_arrangement_and_setup_state` (lines 131-134) on the sprite list:
the callback arranges the first `numSprites` sprites in place, then
`setup_sprite_initial_states` refreshes the base states of every sprite. -/
noncomputable def applyArrangementAndSetup (lookAt : V3 → V3 → V3) (phases : ℕ → ℝ)
    (arr : Arrangement) (numSprites : ℕ) (ss : List Sprite) : List Sprite :=
  setupSpriteInitialStates phases
    (applyArrangement lookAt arr (ss.take numSprites) ++ ss.drop numSprites)

/-! ## Emoji set file and filename derivation
(`get_emoji_filenames_for_set_and_group`, lines 106-118) -/

/-- Lowercase hexadecimal digits of `n`, most significant first, no leading
zeros (Python's `hex(n)[2:]`); structural in a fuel argument so that it
evaluates in the kernel. -/
def pyHexGo : ℕ → ℕ → List Char
  | 0, n => [Nat.digitChar (n % 16)]
  | fuel + 1, n => if n < 16 then [Nat.digitChar n] else pyHexGo fuel (n / 16) ++ [Nat.digitChar (n % 16)]

/-- Lowercase hexadecimal representation of `n` without leading zeros. -/
def pyHex (n : ℕ) : List Char := pyHexGo n n

/-- `pyHex n` left-padded with `'0'` to width `w` (the fixed-width hex field
of Python's `\xXX` / `\uXXXX` / `\UXXXXXXXX` escapes). -/
def pyHexPad (w n : ℕ) : List Char :=
  List.replicate (w - (pyHex n).length) '0' ++ pyHex n

/-- CPython's `unicode_escape` codec on a single code point `c`: code points
at or above U+10000 get an uppercase-`U` 8-hex-digit escape, those in
[U+0100, U+FFFF] a lowercase-`u` 4-digit escape, and Latin-1 code points a
short escape (`\t`, `\n`, `\r`, doubled backslash, `\xXX`) or the literal
character. -/
def pyUnicodeEscape (c : ℕ) : List Char :=
  if 0x10000 ≤ c then '\\' :: 'U' :: pyHexPad 8 c
  else if 0x100 ≤ c then '\\' :: 'u' :: pyHexPad 4 c
  else if c = 9 then ['\\', 't']
  else if c = 10 then ['\\', 'n']
  else if c = 13 then ['\\', 'r']
  else if c = 92 then ['\\', '\\']
  else if c < 32 || 127 ≤ c then '\\' :: 'x' :: pyHexPad 2 c
  else [Char.ofNat c]

/-- Python's `s.split(sep)[-1]`: the suffix of `l` strictly after the last
occurrence of `sep` (the whole list when `sep` does not occur). -/
def afterLastSep (sep : Char) (l : List Char) : List Char :=
  (l.reverse.takeWhile (fun c => c ≠ sep)).reverse

/-- The per-code-point fragment of the derived PNG filename (line 116):
`c.encode('unicode_escape').decode('utf-8').split('U')[-1].lstrip('0').lower()`. -/
def emojiHexFragment (c : Char) : List Char :=
  (((afterLastSep 'U' (pyUnicodeEscape c.toNat)).dropWhile (fun d => d = '0')).map Char.toLower)

/-- The derived PNG filename for one emoji character (a list of code
points): `emoji_u<frag>_<frag>_...png` (line 116). -/
def emojiFilename (char : List Char) : List Char :=
  "emoji_u".toList ++ List.intercalate ['_'] (char.map emojiHexFragment) ++ ".png".toList

/-- A value found in the emoji-set JSON under a group name: either a list of
emoji-character strings or a single `;`-separated string. -/
inductive SetEntry
  | listE (cs : List (List Char))
  | strE (s : List Char)

/-- The parsed shape of an emoji-set JSON document: an object mapping group
names to entries, or a flat list of emoji-character strings. -/
inductive JsonData
  | obj (entries : List (List Char × SetEntry))
  | flat (cs : List (List Char))

/-- The outcome of opening and parsing the emoji-set file, covering the two
exceptions handled on lines 117-118. -/
inductive SetFile
  | notFound
  | badJson
  | parsed (data : JsonData)

/-- Python's `str.strip()`: whitespace removed from both ends. -/
def pyStrip (l : List Char) : List Char :=
  ((l.dropWhile Char.isWhitespace).reverse.dropWhile Char.isWhitespace).reverse

/-- First match of `data.get(group_name, [])` (line 112). -/
def objGet (entries : List (List Char × SetEntry)) (group : List Char) : Option SetEntry :=
  match entries with
  | [] => none
  | (k, v) :: rest => if k = group then some v else objGet rest group

/-- `get_emoji_filenames_for_set_and_group` (lines 106-118): a missing file
or a JSON decode error yields `[]`; an object is indexed by the group name
(a string value is split on `;` and stripped), a flat list is used as is;
empty characters are skipped and each kept character is mapped to its
derived PNG filename. -/
def getEmojiFilenames (file : SetFile) (group : List Char) : List (List Char) :=
  match file with
  | .notFound => []
  | .badJson => []
  | .parsed data =>
    let emoji_chars : List (List Char) :=
      match data with
      | .obj entries =>
        match objGet entries group with
        | none => []
        | some (.listE cs) => cs
        | some (.strE s) => ((s.splitOn ';').map pyStrip).filter (fun e => e ≠ [])
      | .flat cs => cs
    if emoji_chars = [] then []
    else (emoji_chars.filter (fun c => c ≠ [])).map emojiFilename

/-! ## Texture loading (`load_emoji_texture`, `create_emoji_sprite`,
`load_and_arrange_emojis`) -/

/-- `EMOJI_ASSET_BASE_PATH / resolution_folder / filename` as a string. -/
def texturePath (resolutionFolder filename : List Char) : List Char :=
  "assets/noto-emoji/png/".toList ++ resolutionFolder ++ '/' :: filename

/-- `load_emoji_texture` (lines 93-103) with the module-level `texture_cache`
threaded explicitly and the file system abstracted by `fsExists`: a cached
path is returned as is; an existing file is cached and returned; a missing
file yields `none` and leaves the cache unchanged. -/
def loadEmojiTexture (fsExists : List Char → Bool) (cache : List (List Char))
    (emojiCodepointFilename resolutionFolder : List Char) :
    Option (List Char) × List (List Char) :=
  let path := texturePath resolutionFolder emojiCodepointFilename
  if path ∈ cache then (some path, cache)
  else if fsExists path then (some path, path :: cache)
  else (none, cache)

/-- The placeholder `Entity(model='quad', color=color.red, scale=1,
name="fallback_sprite")` created when no texture (or no emoji set) is
available (lines 122 and 193). -/
def fallbackEntity : Sprite :=
  { position := ⟨0, 0, 0⟩, scale := ⟨1, 1, 1⟩, rotation := ⟨0, 0, 0⟩,
    billboard := false, visible := true, texture := none, spriteColor := .red,
    entityName := "fallback_sprite".toList, hasBaseScaleVal := false,
    baseScaleVal := 0, baseScale := ⟨0, 0, 0⟩, basePosition := ⟨0, 0, 0⟩,
    baseRotationZ := 0, phaseOffset := 0 }

/-- `create_emoji_sprite` (lines 120-129): without a texture reference the
red fallback entity is returned; otherwise a billboarded textured quad with
unit base transform and a fresh random phase (the oracle value `phase`). -/
def createEmojiSprite (phase : ℝ) (textureRef : Option (List Char)) : Sprite :=
  match textureRef with
  | none => fallbackEntity
  | some p =>
    { position := ⟨0, 0, 0⟩, scale := ⟨1, 1, 1⟩, rotation := ⟨0, 0, 0⟩,
      billboard := true, visible := true, texture := some p, spriteColor := .white,
      entityName := [], hasBaseScaleVal := true,
      baseScaleVal := 1, baseScale := ⟨1, 1, 1⟩, basePosition := ⟨0, 0, 0⟩,
      baseRotationZ := 0, phaseOffset := phase }

/-- Re-texturing of an already existing sprite inside the load loop (lines
199-203): a missing texture leaves the Ursina `white_cube` fallback texture
and paints the sprite red. -/
def assignTexture (textureRef : Option (List Char)) (s : Sprite) : Sprite :=
  { s with texture := some (textureRef.getD "white_cube".toList),
           spriteColor := if textureRef.isSome then .white else .red,
           visible := true }

/-! ## Application state, post-processing selector and input handling -/

/-- The two compiled post-process shaders of `load_custom_shaders`. -/
inductive ShaderId
  | grayscale
  | sepia
deriving DecidableEq

/-- The engine camera's post-processing state: the bound full-screen shader
(`camera.shader`) and the last value pushed for the `amount` uniform
(`camera.set_shader_input('amount', ...)`). -/
structure CameraState where
  shader : Option ShaderId
  amountInput : Option ℝ

/-- The mutable `EmojiApp` state the embedded operations touch. -/
structure AppState where
  sprites : List Sprite
  num_sprites : ℕ
  cfg : Config
  current_arrangement : String
  grayscale_enabled : Bool
  sepia_enabled : Bool
  sepia_amount : ℝ
  bloom_enabled : Bool
  afterimage_enabled : Bool
  camera : CameraState
  textureCache : List (List Char)
  quitRequested : Bool

/-- `apply_post_processing` (lines 251-265): the bound shader is cleared
first; then grayscale is bound if `grayscale_enabled`, else sepia (pushing
its `amount` uniform) if `sepia_enabled`. -/
def applyPostProcessing (st : AppState) : AppState :=
  if st.grayscale_enabled then
    { st with camera := { st.camera with shader := some ShaderId.grayscale } }
  else if st.sepia_enabled then
    { st with camera := { shader := some ShaderId.sepia, amountInput := some st.sepia_amount } }
  else
    { st with camera := { st.camera with shader := none } }

/-- The shared arrangement-name → (function, args) tables
(`arrangement_map`, line 211, and `arrangement_args_map`, line 224), both
with the same concrete parameters. -/
def arrangementFor (numSprites : ℕ) (name : String) : Option Arrangement :=
  if name = "grid" then some (.grid 5 ((numSprites + 4) / 5) 1.2 1)
  else if name = "swirl" then some (.swirl numSprites 3 3 5 0.7)
  else if name = "torus" then some (.torus numSprites 3 1 0.5)
  else if name = "sphere" then some (.sphere numSprites 3 0.6)
  else none

/-- The node-animation mode cycle of the `n` key (line 238). -/
def nodePatterns : List String := ["none", "wave_position", "wave_zoom", "wave_rotation"]

/-- `input` (lines 222-249): the key-dispatch chain of `EmojiApp.input`. -/
noncomputable def inputKey (lookAt : V3 → V3 → V3) (phases : ℕ → ℝ) (key : String)
    (st : AppState) : AppState :=
  match arrangementFor st.num_sprites
      (if key = "1" then "grid" else if key = "2" then "swirl"
       else if key = "3" then "torus" else if key = "4" then "sphere" else "") with
  | some arr =>
      { st with
        current_arrangement :=
          (if key = "1" then "grid" else if key = "2" then "swirl"
           else if key = "3" then "torus" else "sphere"),
        sprites := applyArrangementAndSetup lookAt phases arr st.num_sprites st.sprites }
  | none =>
    if key = "r" then
      { st with cfg := { st.cfg with idle_rotation_enabled := !st.cfg.idle_rotation_enabled } }
    else if key = "t" then
      { st with cfg := { st.cfg with idle_zoom_enabled := !st.cfg.idle_zoom_enabled } }
    else if key = "n" then
      let current_idx := nodePatterns.indexOf st.cfg.node_animation_type
      let nextPattern := nodePatterns.getD ((current_idx + 1) % nodePatterns.length) "none"
      { st with cfg := { st.cfg with node_animation_type := nextPattern } }
    else if key = "g" then
      applyPostProcessing { st with grayscale_enabled := !st.grayscale_enabled }
    else if key = "s" then
      applyPostProcessing { st with sepia_enabled := !st.sepia_enabled }
    else if key = "b" then { st with bloom_enabled := !st.bloom_enabled }
    else if key = "a" then { st with afterimage_enabled := !st.afterimage_enabled }
    else if key = "s up" then
      applyPostProcessing { st with sepia_amount := min 1.0 (st.sepia_amount + 0.1) }
    else if key = "s down" then
      applyPostProcessing { st with sepia_amount := max 0.0 (st.sepia_amount - 0.1) }
    else if key = "escape" then { st with quitRequested := true }
    else st

/-- A whole key sequence fed through `input`. -/
noncomputable def inputKeys (lookAt : V3 → V3 → V3) (phases : ℕ → ℝ) (keys : List String)
    (st : AppState) : AppState :=
  keys.foldl (fun acc k => inputKey lookAt phases k acc) st

/-- One iteration of the texture-load loop of `load_and_arrange_emojis`
(lines 196-206), threading (sprite list, texture cache). -/
def loadLoopStep (fsExists : List Char → Bool) (phasesA : ℕ → ℝ)
    (filenames : List (List Char)) (acc : List Sprite × List (List Char)) (i : ℕ) :
    List Sprite × List (List Char) :=
  let filename := filenames.getD (i % filenames.length) []
  let (textureRef, cache') := loadEmojiTexture fsExists acc.2 filename "128".toList
  if i < acc.1.length then
    (acc.1.set i (assignTexture textureRef (acc.1.getD i fallbackEntity)), cache')
  else
    (acc.1 ++ [createEmojiSprite (phasesA i) textureRef], cache')

/-- `load_and_arrange_emojis` (lines 190-219): derive the filenames for the
default set and group; with none available fall back to a single red
placeholder sprite (only when the pool is empty) and stop; otherwise
(re)build the first `num_sprites` sprites (cycling through the filenames),
hide the surplus pool, and re-run the current arrangement followed by the
base-state refresh. -/
noncomputable def loadAndArrangeEmojis (lookAt : V3 → V3 → V3) (fsExists : List Char → Bool)
    (setFile : SetFile) (phasesA phasesB : ℕ → ℝ) (st : AppState) : AppState :=
  let filenames := getEmojiFilenames setFile "Smileys & Emotion".toList
  if filenames = [] then
    if st.sprites.isEmpty then { st with sprites := [fallbackEntity] } else st
  else
    let loaded := (List.range st.num_sprites).foldl
      (loadLoopStep fsExists phasesA filenames) (st.sprites, st.textureCache)
    let hidden := mapIdxF
      (fun i s => if st.num_sprites ≤ i then { s with visible := false } else s) loaded.1
    match arrangementFor st.num_sprites st.current_arrangement with
    | some arr =>
        { st with sprites := applyArrangementAndSetup lookAt phasesB arr st.num_sprites hidden,
                  textureCache := loaded.2 }
    | none => { st with sprites := hidden, textureCache := loaded.2 }

/-! ## Helper lemmas -/

theorem applyPostProcessing_sepia_amount (st : AppState) :
    (applyPostProcessing st).sepia_amount = st.sepia_amount := by
  unfold applyPostProcessing
  split_ifs <;> rfl

set_option maxHeartbeats 1600000 in
/-- `input` changes `sepia_amount` only on the `s up` / `s down` keys, where
it applies exactly the clamped ±0.1 step. -/
theorem inputKey_sepia_amount (lookAt : V3 → V3 → V3) (phases : ℕ → ℝ) (key : String)
    (st : AppState) :
    (inputKey lookAt phases key st).sepia_amount =
      if key = "s up" then min 1.0 (st.sepia_amount + 0.1)
      else if key = "s down" then max 0.0 (st.sepia_amount - 0.1)
      else st.sepia_amount := by
  by_cases h1 : key = "1"
  · subst h1; simp [inputKey, arrangementFor]
  by_cases h2 : key = "2"
  · subst h2; simp [inputKey, arrangementFor]
  by_cases h3 : key = "3"
  · subst h3; simp [inputKey, arrangementFor]
  by_cases h4 : key = "4"
  · subst h4; simp [inputKey, arrangementFor]
  have hname : (if key = "1" then "grid" else if key = "2" then "swirl"
      else if key = "3" then "torus" else if key = "4" then "sphere" else "") = "" := by
    simp [h1, h2, h3, h4]
  unfold inputKey
  rw [hname]
  have hnone : arrangementFor st.num_sprites "" = none := by simp [arrangementFor]
  rw [hnone]
  dsimp only
  clear hname hnone h1 h2 h3 h4
  split_ifs <;> simp_all [applyPostProcessing_sepia_amount]

/-! ## C1: post-process selector priority -/

/-- C1 (evaluation at the failing input): starting from any state with both
post-process toggles off, pressing `g` then `s` leaves both
`grayscale_enabled` and `sepia_enabled` set, and the camera shader bound by
`apply_post_processing` is **grayscale**, not sepia: the `if/elif` chain on
lines 259-263 tests `grayscale_enabled` first, contradicting its own
comment "Prioritize Sepia if both somehow enabled" and the claimed
sepia-wins priority. -/
theorem grayscale_bound_after_g_then_s (lookAt : V3 → V3 → V3) (phases : ℕ → ℝ)
    (st : AppState) (hg : st.grayscale_enabled = false) (hs : st.sepia_enabled = false) :
    (inputKey lookAt phases "s" (inputKey lookAt phases "g" st)).grayscale_enabled = true ∧
    (inputKey lookAt phases "s" (inputKey lookAt phases "g" st)).sepia_enabled = true ∧
    (inputKey lookAt phases "s" (inputKey lookAt phases "g" st)).camera.shader =
      some ShaderId.grayscale := by
  simp [inputKey, arrangementFor, applyPostProcessing, hg, hs]

/-! ## C9: sepia intensity clamped to [0, 1] -/

/-- C9: the `s up` key adds 0.1 to the sepia intensity clamped at 1, the
`s down` key subtracts 0.1 clamped at 0, and under any key sequence the
intensity stays within `[0, 1]` once it is there. -/
theorem sepia_amount_clamped (lookAt : V3 → V3 → V3) (phases : ℕ → ℝ) :
    (∀ st : AppState,
      (inputKey lookAt phases "s up" st).sepia_amount = min 1.0 (st.sepia_amount + 0.1)) ∧
    (∀ st : AppState,
      (inputKey lookAt phases "s down" st).sepia_amount = max 0.0 (st.sepia_amount - 0.1)) ∧
    (∀ (keys : List String) (st : AppState), 0 ≤ st.sepia_amount → st.sepia_amount ≤ 1 →
      0 ≤ (inputKeys lookAt phases keys st).sepia_amount ∧
        (inputKeys lookAt phases keys st).sepia_amount ≤ 1) := by
  refine ⟨fun st => ?_, fun st => ?_, fun keys => ?_⟩
  · rw [inputKey_sepia_amount]; simp
  · rw [inputKey_sepia_amount]; simp
  · induction keys with
    | nil => intro st h0 h1; exact ⟨h0, h1⟩
    | cons k ks ih =>
      intro st h0 h1
      have hstep := inputKey_sepia_amount lookAt phases k st
      have hlo : 0 ≤ (inputKey lookAt phases k st).sepia_amount := by
        rw [hstep]; split_ifs
        · exact le_min (by norm_num) (by linarith)
        · exact le_trans (by norm_num) (le_max_left _ _)
        · exact h0
      have hhi : (inputKey lookAt phases k st).sepia_amount ≤ 1 := by
        rw [hstep]; split_ifs
        · exact le_trans (min_le_left _ _) (by norm_num)
        · exact max_le (by norm_num) (by linarith)
        · exact h1
      exact ih (inputKey lookAt phases k st) hlo hhi

/-! ## Concrete fixtures (the `__init__` defaults of `EmojiApp`, lines 32-58) -/

/-- The animation parameters set in `EmojiApp.__init__`. -/
def initConfig : Config :=
  { idle_rotation_enabled := true, idle_zoom_enabled := true,
    idle_rotation_pattern := "sin", idle_zoom_pattern := "sin",
    idle_rotation_speed := 30, idle_zoom_amplitude := 0.1, idle_zoom_speed_factor := 2,
    node_animation_enabled := true, node_animation_type := "wave_position",
    node_anim_amplitude := 0.5, node_anim_frequency := 1, node_anim_speed := 1 }

/-- The application state right after `EmojiApp.__init__` sets its scalar
fields (before any sprites are loaded). -/
def initialAppState : AppState :=
  { sprites := [], num_sprites := 30, cfg := initConfig, current_arrangement := "sphere",
    grayscale_enabled := false, sepia_enabled := false, sepia_amount := 1.0,
    bloom_enabled := false, afterimage_enabled := false,
    camera := { shader := none, amountInput := none }, textureCache := [],
    quitRequested := false }

/-- A trivial stand-in for the engine's `look_at` and for the random phase
oracle, used by concrete witnesses. -/
def zeroLookAt : V3 → V3 → V3 := fun _ _ => ⟨0, 0, 0⟩

/-- Zero-valued phase oracle for concrete witnesses. -/
def zeroPhases : ℕ → ℝ := fun _ => 0

/-- Witness for C1's evaluation theorem at the initial state. -/
theorem grayscale_bound_after_g_then_s_witness :
    initialAppState.grayscale_enabled = false ∧ initialAppState.sepia_enabled = false ∧
    (inputKey zeroLookAt zeroPhases "s"
        (inputKey zeroLookAt zeroPhases "g" initialAppState)).camera.shader =
      some ShaderId.grayscale :=
  ⟨rfl, rfl, (grayscale_bound_after_g_then_s zeroLookAt zeroPhases initialAppState rfl rfl).2.2⟩

/-- Witness for C9 at the initial state and the key sequence
`s, s up, s up`. -/
theorem sepia_amount_clamped_witness :
    ((0 : ℝ) ≤ initialAppState.sepia_amount ∧ initialAppState.sepia_amount ≤ 1) ∧
    (0 ≤ (inputKeys zeroLookAt zeroPhases ["s", "s up", "s up"] initialAppState).sepia_amount ∧
      (inputKeys zeroLookAt zeroPhases ["s", "s up", "s up"] initialAppState).sepia_amount ≤ 1) := by
  have h0 : (0 : ℝ) ≤ initialAppState.sepia_amount := by norm_num [initialAppState]
  have h1 : initialAppState.sepia_amount ≤ 1 := by norm_num [initialAppState]
  exact ⟨⟨h0, h1⟩,
    (sepia_amount_clamped zeroLookAt zeroPhases).2.2 ["s", "s up", "s up"] initialAppState h0 h1⟩

/-! ## C2: sphere layout -/

theorem sphereUnitPos_norm (n i : ℕ) (h2 : i < n) :
    (sphereUnitPos n i).x ^ 2 + (sphereUnitPos n i).y ^ 2 + (sphereUnitPos n i).z ^ 2 = 1 := by
  unfold sphereUnitPos
  dsimp only
  set m : ℕ := max 1 (n - 1) with hm
  have him : i ≤ m := by omega
  have hmR : (0 : ℝ) < (m : ℝ) := by
    have : 1 ≤ m := le_max_left 1 _
    exact_mod_cast Nat.lt_of_lt_of_le Nat.zero_lt_one this
  set y : ℝ := 1 - ((i : ℝ) / (m : ℝ)) * 2 with hy
  have hq0 : 0 ≤ (i : ℝ) / (m : ℝ) := by positivity
  have hq1 : (i : ℝ) / (m : ℝ) ≤ 1 := by
    rw [div_le_one hmR]; exact_mod_cast him
  have hyl : -1 ≤ y := by rw [hy]; linarith
  have hyu : y ≤ 1 := by rw [hy]; linarith
  have hX : (0 : ℝ) ≤ 1 - y * y := by nlinarith [mul_nonneg (by linarith : (0 : ℝ) ≤ 1 - y) (by linarith : (0 : ℝ) ≤ 1 + y)]
  have hmax : max 0 (1 - y * y) = 1 - y * y := max_eq_right hX
  rw [hmax]
  have hs : Real.sqrt (1 - y * y) ^ 2 = 1 - y * y := Real.sq_sqrt hX
  set θ : ℝ := Real.pi * (Real.sqrt 5 - 1) * (i : ℝ)
  have key : (Real.cos θ * Real.sqrt (1 - y * y)) ^ 2 + y ^ 2 +
      (Real.sin θ * Real.sqrt (1 - y * y)) ^ 2 =
      (Real.cos θ ^ 2 + Real.sin θ ^ 2) * Real.sqrt (1 - y * y) ^ 2 + y ^ 2 := by ring
  rw [key, hs, Real.cos_sq_add_sin_sq]
  ring

theorem spherePos_y_formula (n i : ℕ) (R : ℝ) (h1 : 1 ≤ n) (h2 : i < n) :
    (spherePos n R i).y = (1 - 2 * (i : ℝ) / ((n : ℝ) - 1)) * R := by
  unfold spherePos sphereUnitPos V3.smul
  dsimp only
  rcases Nat.lt_or_ge n 2 with hn | hn
  · have hn1 : n = 1 := by omega
    have hi0 : i = 0 := by omega
    subst hn1 hi0
    norm_num
  · have hmax : max 1 (n - 1) = n - 1 := by omega
    rw [hmax]
    have hcast : ((n - 1 : ℕ) : ℝ) = (n : ℝ) - 1 := by
      push_cast [Nat.cast_sub (by omega : 1 ≤ n)]
      ring
    rw [hcast]
    ring

theorem arrangeSpritesSphere_position (lookAt : V3 → V3 → V3) (n : ℕ) (R sv : ℝ)
    (ss : List Sprite) (i : ℕ) (hi : i < n) (hlen : i < ss.length) :
    ((arrangeSpritesSphere lookAt n R sv ss).getD i fallbackEntity).position = spherePos n R i := by
  rw [List.getD_eq_getElem?_getD]
  unfold arrangeSpritesSphere mapIdxF
  rw [getElem?_mapIdxGo, List.getElem?_eq_getElem hlen]
  simp [hi, sphereStep, arrange3dPattern]

theorem spherePos_12_first : spherePos 12 0.6 0 = ⟨0, 0.6, 0⟩ := by
  apply (V3.ext_iff' _ _).mpr
  unfold spherePos sphereUnitPos V3.smul
  norm_num

theorem spherePos_12_last : spherePos 12 0.6 11 = ⟨0, -0.6, 0⟩ := by
  apply (V3.ext_iff' _ _).mpr
  unfold spherePos sphereUnitPos V3.smul
  norm_num

/-- C2: every sprite placed by the sphere arrangement sits at Euclidean
distance `R` from the origin (exactly, in the real-number model), its `y`
coordinate follows `(1 - 2*i/(n-1))*R`, the arrangement writes exactly
`spherePos` into the sprite position, and for `n = 12`, `R = 0.6` the first
and last sprites sit at the poles `(0, 0.6, 0)` and `(0, -0.6, 0)`. -/
theorem sphere_layout_radius :
    (∀ (n i : ℕ) (R : ℝ), 1 ≤ n → i < n → 0 ≤ R →
      Real.sqrt ((spherePos n R i).x ^ 2 + (spherePos n R i).y ^ 2 + (spherePos n R i).z ^ 2)
          = R ∧
        (spherePos n R i).y = (1 - 2 * (i : ℝ) / ((n : ℝ) - 1)) * R) ∧
    (∀ (lookAt : V3 → V3 → V3) (n : ℕ) (R sv : ℝ) (ss : List Sprite) (i : ℕ),
      i < n → i < ss.length →
      ((arrangeSpritesSphere lookAt n R sv ss).getD i fallbackEntity).position
        = spherePos n R i) ∧
    spherePos 12 0.6 0 = ⟨0, 0.6, 0⟩ ∧ spherePos 12 0.6 11 = ⟨0, -0.6, 0⟩ := by
  refine ⟨fun n i R h1 h2 hR => ⟨?_, spherePos_y_formula n i R h1 h2⟩,
    arrangeSpritesSphere_position, spherePos_12_first, spherePos_12_last⟩
  have hunit := sphereUnitPos_norm n i h2
  have hexp : (spherePos n R i).x ^ 2 + (spherePos n R i).y ^ 2 + (spherePos n R i).z ^ 2 =
      R ^ 2 * ((sphereUnitPos n i).x ^ 2 + (sphereUnitPos n i).y ^ 2 +
        (sphereUnitPos n i).z ^ 2) := by
    unfold spherePos V3.smul
    dsimp only
    ring
  rw [hexp, hunit, mul_one, Real.sqrt_sq hR]

/-- Witness for C2 at `n = 12`, `i = 0`, `R = 0.6`. -/
theorem sphere_layout_radius_witness :
    ((1 : ℕ) ≤ 12 ∧ (0 : ℕ) < 12 ∧ (0 : ℝ) ≤ 0.6) ∧
    Real.sqrt ((spherePos 12 0.6 0).x ^ 2 + (spherePos 12 0.6 0).y ^ 2 +
      (spherePos 12 0.6 0).z ^ 2) = 0.6 :=
  ⟨⟨by norm_num, by norm_num, by norm_num⟩,
    (sphere_layout_radius.1 12 0 0.6 (by norm_num) (by norm_num) (by norm_num)).1⟩

/-! ## C3: grid layout -/

/-- The row-major cell traversal enumerates cell `k` as
`(k / numCols, k % numCols)`. -/
theorem gridCells_eq (numRows numCols : ℕ) :
    gridCells numRows numCols =
      (List.range (numRows * numCols)).map (fun k => (k / numCols, k % numCols)) := by
  induction numRows with
  | zero => simp [gridCells]
  | succ r ih =>
    have lhs : gridCells (r + 1) numCols =
        gridCells r numCols ++ (List.range numCols).map (fun c => (r, c)) := by
      unfold gridCells
      rw [List.range_succ, List.flatMap_append _ _ _, List.flatMap_cons, List.flatMap_nil,
        List.append_nil]
    rw [lhs, ih, Nat.succ_mul, List.range_add, List.map_append, List.map_map]
    congr 1
    apply List.map_congr_left
    intro c hc
    have hclt : c < numCols := List.mem_range.mp hc
    have hcpos : 0 < numCols := by omega
    simp only [Function.comp_apply]
    rw [Nat.add_comm (r * numCols) c, Nat.add_mul_div_right c r hcpos, Nat.div_eq_of_lt hclt,
      Nat.add_mul_mod_self_right, Nat.mod_eq_of_lt hclt]
    simp

theorem gridCells_length (numRows numCols : ℕ) :
    (gridCells numRows numCols).length = numRows * numCols := by
  rw [gridCells_eq]; simp

theorem gridCells_getElem? (numRows numCols i : ℕ) (h : i < numRows * numCols) :
    (gridCells numRows numCols)[i]? = some (i / numCols, i % numCols) := by
  rw [gridCells_eq, List.getElem?_map, List.getElem?_range h]
  rfl

/-- With `numCols > 0`, a `numCols × ceil(n/numCols)` grid has at least `n`
cells. -/
theorem ceil_rows_capacity (n numCols : ℕ) (hc : 0 < numCols) :
    n ≤ (n + numCols - 1) / numCols * numCols := by
  obtain ⟨k, rfl⟩ : ∃ k, numCols = k + 1 := ⟨numCols - 1, by omega⟩
  have hdm := Nat.div_add_mod (n + (k + 1) - 1) (k + 1)
  have hmod := Nat.mod_lt (n + (k + 1) - 1) (by omega : 0 < k + 1)
  have hsimp : n + (k + 1) - 1 = n + k := by omega
  rw [hsimp] at hdm hmod ⊢
  nlinarith [hdm, hmod]

/-- C3: with `numRows = ceil(n/numCols)` and a pool of exactly `n` sprites,
the grid arrangement places sprite `i` in row-major order at cell
`(i % numCols, i / numCols)` inside the `numCols × numRows` footprint,
billboarded, with zero rotation, at the uniform cell scale, and every
sprite with index at least `n` ends up invisible. -/
theorem grid_layout_cells (numCols n : ℕ) (cellSize sv : ℝ) (ss : List Sprite)
    (hc : 0 < numCols) (hlen : ss.length = n) :
    (∀ i, i < n →
      (((arrangeSpritesGrid numCols ((n + numCols - 1) / numCols) cellSize sv ss).getD i
          fallbackEntity).position =
        gridCellPos numCols ((n + numCols - 1) / numCols) cellSize (i / numCols) (i % numCols) ∧
      ((arrangeSpritesGrid numCols ((n + numCols - 1) / numCols) cellSize sv ss).getD i
          fallbackEntity).billboard = true ∧
      ((arrangeSpritesGrid numCols ((n + numCols - 1) / numCols) cellSize sv ss).getD i
          fallbackEntity).rotation = ⟨0, 0, 0⟩ ∧
      ((arrangeSpritesGrid numCols ((n + numCols - 1) / numCols) cellSize sv ss).getD i
          fallbackEntity).scale = uniformV3 sv ∧
      ((arrangeSpritesGrid numCols ((n + numCols - 1) / numCols) cellSize sv ss).getD i
          fallbackEntity).baseScaleVal = sv ∧
      ((arrangeSpritesGrid numCols ((n + numCols - 1) / numCols) cellSize sv ss).getD i
          fallbackEntity).visible = true ∧
      i % numCols < numCols ∧ i / numCols < (n + numCols - 1) / numCols)) ∧
    (∀ j, n ≤ j → j < ss.length →
      ((arrangeSpritesGrid numCols ((n + numCols - 1) / numCols) cellSize sv ss).getD j
        fallbackEntity).visible = false) := by
  have hcap := ceil_rows_capacity n numCols hc
  constructor
  · intro i hi
    have hicap : i < (n + numCols - 1) / numCols * numCols := by omega
    have hilen : i < ss.length := by omega
    have hcell := gridCells_getElem? ((n + numCols - 1) / numCols) numCols i
      (by omega : i < (n + numCols - 1) / numCols * numCols)
    have hdivlt : i / numCols < (n + numCols - 1) / numCols :=
      (Nat.div_lt_iff_lt_mul hc).mpr hicap
    unfold arrangeSpritesGrid mapIdxF gridStep
    rw [List.getD_eq_getElem?_getD, getElem?_mapIdxGo, List.getElem?_eq_getElem hilen]
    simp only [Nat.zero_add, Option.map_some, Option.getD_some, hcell]
    exact ⟨rfl, rfl, rfl, rfl, rfl, rfl, Nat.mod_lt _ hc, hdivlt⟩
  · intro j hj hjl
    omega

/-- Witness for C3 with a single sprite in a 5-column grid. -/
theorem grid_layout_cells_witness :
    ((0 : ℕ) < 5 ∧ ([fallbackEntity] : List Sprite).length = 1) ∧
    ((arrangeSpritesGrid 5 ((1 + 5 - 1) / 5) 1.2 1 [fallbackEntity]).getD 0
        fallbackEntity).position =
      gridCellPos 5 ((1 + 5 - 1) / 5) 1.2 (0 / 5) (0 % 5) :=
  ⟨⟨by norm_num, rfl⟩,
    ((grid_layout_cells 5 1 1.2 1 [fallbackEntity] (by norm_num) rfl).1 0 (by norm_num)).1⟩

/-! ## C4 / C8 / C10: animation composition -/

theorem applyNodeAnimations_preserved (cfg : Config) (s : Sprite) (i : ℕ) (t dt : ℝ) :
    (applyNodeAnimations cfg s i t dt).billboard = s.billboard ∧
    (applyNodeAnimations cfg s i t dt).basePosition = s.basePosition ∧
    (applyNodeAnimations cfg s i t dt).baseRotationZ = s.baseRotationZ ∧
    (applyNodeAnimations cfg s i t dt).baseScale = s.baseScale ∧
    (applyNodeAnimations cfg s i t dt).baseScaleVal = s.baseScaleVal ∧
    (applyNodeAnimations cfg s i t dt).hasBaseScaleVal = s.hasBaseScaleVal ∧
    (applyNodeAnimations cfg s i t dt).phaseOffset = s.phaseOffset ∧
    (applyNodeAnimations cfg s i t dt).visible = s.visible := by
  unfold applyNodeAnimations
  dsimp only
  split_ifs <;> simp_all

theorem idleRotStep_preserved (cfg : Config) (t dt : ℝ) (s : Sprite) :
    (idleRotStep cfg t dt s).position = s.position ∧
    (idleRotStep cfg t dt s).scale = s.scale ∧
    (idleRotStep cfg t dt s).billboard = s.billboard ∧
    (idleRotStep cfg t dt s).baseScale = s.baseScale ∧
    (idleRotStep cfg t dt s).baseScaleVal = s.baseScaleVal ∧
    (idleRotStep cfg t dt s).hasBaseScaleVal = s.hasBaseScaleVal ∧
    (idleRotStep cfg t dt s).phaseOffset = s.phaseOffset ∧
    (idleRotStep cfg t dt s).rotation.x = s.rotation.x := by
  unfold idleRotStep
  dsimp only
  split_ifs <;> simp_all

theorem idleZoomStep_preserved (cfg : Config) (t : ℝ) (s : Sprite) :
    (idleZoomStep cfg t s).position = s.position ∧
    (idleZoomStep cfg t s).rotation = s.rotation := by
  unfold idleZoomStep
  dsimp only
  split_ifs <;> simp_all

/-- C4: for a visible sprite whose base scale is the uniform vector of its
scalar base scale and whose accumulated rotation still matches its base
rotation, a frame update with node animation disabled (or mode `none`) and
both idle layers disabled reproduces the base transform exactly. -/
theorem disabled_layers_reproduce_base (cfg : Config) (i : ℕ) (t dt : ℝ) (s : Sprite)
    (hvis : s.visible = true)
    (hnode : cfg.node_animation_enabled = false ∨ cfg.node_animation_type = "none")
    (hrot : cfg.idle_rotation_enabled = false)
    (hzoom : cfg.idle_zoom_enabled = false)
    (hscale : s.baseScale = uniformV3 s.baseScaleVal)
    (hrotz : s.rotation.z = s.baseRotationZ) :
    (updateSpriteFrame cfg i t dt s).position = s.basePosition ∧
    (updateSpriteFrame cfg i t dt s).scale = s.baseScale ∧
    (updateSpriteFrame cfg i t dt s).rotation = s.rotation ∧
    (updateSpriteFrame cfg i t dt s).rotation.z = s.baseRotationZ := by
  have hnodeEq : applyNodeAnimations cfg s i t dt =
      { s with position := s.basePosition, scale := uniformV3 s.baseScaleVal } := by
    unfold applyNodeAnimations
    rcases hnode with h | h <;> simp [h]
  have hrotEq : ∀ x : Sprite, idleRotStep cfg t dt x = x := by
    intro x; unfold idleRotStep; simp [hrot]
  have hzoomEq : ∀ x : Sprite, idleZoomStep cfg t x = x := by
    intro x; unfold idleZoomStep; simp [hzoom]
  have hupdate : updateSpriteFrame cfg i t dt s =
      { s with position := s.basePosition, scale := uniformV3 s.baseScaleVal } := by
    unfold updateSpriteFrame applyIdleAnimations
    rw [hvis, if_pos rfl, hnodeEq, hrotEq, hzoomEq, hvis]
  rw [hupdate]
  exact ⟨rfl, hscale.symm, rfl, hrotz⟩

/-- Witness sprite: a billboarded unit sprite sitting at its base state. -/
def witnessSprite : Sprite :=
  { position := ⟨1, 2, 3⟩, scale := ⟨2, 2, 2⟩, rotation := ⟨0, 0, 5⟩,
    billboard := true, visible := true, texture := none, spriteColor := .white,
    entityName := [], hasBaseScaleVal := true, baseScaleVal := 2,
    baseScale := ⟨2, 2, 2⟩, basePosition := ⟨1, 2, 3⟩, baseRotationZ := 5,
    phaseOffset := 0 }

/-- The all-disabled animation configuration. -/
def disabledConfig : Config :=
  { idle_rotation_enabled := false, idle_zoom_enabled := false,
    idle_rotation_pattern := "sin", idle_zoom_pattern := "sin",
    idle_rotation_speed := 30, idle_zoom_amplitude := 0.1, idle_zoom_speed_factor := 2,
    node_animation_enabled := false, node_animation_type := "none",
    node_anim_amplitude := 0.5, node_anim_frequency := 1, node_anim_speed := 1 }

/-- Witness for C4 on a concrete sprite and the all-disabled configuration. -/
theorem disabled_layers_reproduce_base_witness :
    (witnessSprite.visible = true ∧ disabledConfig.node_animation_enabled = false ∧
      disabledConfig.idle_rotation_enabled = false ∧ disabledConfig.idle_zoom_enabled = false ∧
      witnessSprite.baseScale = uniformV3 witnessSprite.baseScaleVal ∧
      witnessSprite.rotation.z = witnessSprite.baseRotationZ) ∧
    (updateSpriteFrame disabledConfig 0 1 1 witnessSprite).position = witnessSprite.basePosition ∧
    (updateSpriteFrame disabledConfig 0 1 1 witnessSprite).scale = witnessSprite.baseScale := by
  have h := disabled_layers_reproduce_base disabledConfig 0 1 1 witnessSprite rfl (Or.inl rfl)
    rfl rfl rfl rfl
  exact ⟨⟨rfl, rfl, rfl, rfl, rfl, rfl⟩, h.1, h.2.1⟩

/-- C8: with idle zoom enabled (and the sprite carrying a base scale), the
frame update sets the X/Y scale to `baseScaleVal * zoomMultiplier` computed
from the *base* scalar — whatever the node layer (including `wave_zoom`)
did to the scale — and keeps the base Z scale for billboards. -/
theorem idle_zoom_overrides_node_zoom (cfg : Config) (i : ℕ) (t dt : ℝ) (s : Sprite)
    (hvis : s.visible = true) (hzoom : cfg.idle_zoom_enabled = true)
    (hhas : s.hasBaseScaleVal = true) :
    (updateSpriteFrame cfg i t dt s).scale =
      ⟨s.baseScaleVal * idleZoomVal cfg t s.phaseOffset,
       s.baseScaleVal * idleZoomVal cfg t s.phaseOffset,
       if s.billboard then s.baseScale.z
       else s.baseScaleVal * idleZoomVal cfg t s.phaseOffset⟩ := by
  obtain ⟨hb1, -, -, hbs1, hv1, hh1, hp1, -⟩ := applyNodeAnimations_preserved cfg s i t dt
  obtain ⟨-, -, hb2, hbs2, hv2, hh2, hp2, -⟩ :=
    idleRotStep_preserved cfg t dt (applyNodeAnimations cfg s i t dt)
  unfold updateSpriteFrame applyIdleAnimations
  rw [hvis, if_pos rfl]
  unfold idleZoomStep
  rw [hh2, hh1, hhas, hzoom]
  simp only [Bool.and_self, if_true]
  rw [hv2, hv1, hp2, hp1, hb2, hb1, hbs2, hbs1]

/-- Witness for C8 on a concrete sprite and the initial configuration. -/
theorem idle_zoom_overrides_node_zoom_witness :
    (witnessSprite.visible = true ∧ initConfig.idle_zoom_enabled = true ∧
      witnessSprite.hasBaseScaleVal = true) ∧
    (updateSpriteFrame initConfig 0 1 1 witnessSprite).scale =
      ⟨witnessSprite.baseScaleVal * idleZoomVal initConfig 1 witnessSprite.phaseOffset,
       witnessSprite.baseScaleVal * idleZoomVal initConfig 1 witnessSprite.phaseOffset,
       if witnessSprite.billboard then witnessSprite.baseScale.z
       else witnessSprite.baseScaleVal * idleZoomVal initConfig 1 witnessSprite.phaseOffset⟩ :=
  ⟨⟨rfl, rfl, rfl⟩, idle_zoom_overrides_node_zoom initConfig 0 1 1 witnessSprite rfl rfl rfl⟩

theorem idleRotStep_disabled (cfg : Config) (t dt : ℝ) (x : Sprite)
    (h : cfg.idle_rotation_enabled = false) : idleRotStep cfg t dt x = x := by
  unfold idleRotStep; simp [h]

theorem applyNodeAnimations_ps_eq (cfg : Config) (i : ℕ) (t dt : ℝ) (x y : Sprite)
    (hbp : x.basePosition = y.basePosition) (hbv : x.baseScaleVal = y.baseScaleVal)
    (hph : x.phaseOffset = y.phaseOffset) (hbb : x.billboard = y.billboard)
    (hbs : x.baseScale = y.baseScale) :
    (applyNodeAnimations cfg x i t dt).position = (applyNodeAnimations cfg y i t dt).position ∧
    (applyNodeAnimations cfg x i t dt).scale = (applyNodeAnimations cfg y i t dt).scale := by
  unfold applyNodeAnimations
  dsimp only
  rw [hbp, hbv, hph, hbb, hbs]
  split_ifs <;> exact ⟨rfl, rfl⟩

theorem applyNodeAnimations_rot_delta (cfg : Config) (i : ℕ) (t dt : ℝ) (x y : Sprite)
    (hph : x.phaseOffset = y.phaseOffset) (hbb : x.billboard = y.billboard) :
    (applyNodeAnimations cfg x i t dt).rotation.x = x.rotation.x ∧
    (applyNodeAnimations cfg x i t dt).rotation.y - x.rotation.y =
      (applyNodeAnimations cfg y i t dt).rotation.y - y.rotation.y ∧
    (applyNodeAnimations cfg x i t dt).rotation.z - x.rotation.z =
      (applyNodeAnimations cfg y i t dt).rotation.z - y.rotation.z := by
  unfold applyNodeAnimations
  dsimp only
  rw [hph, hbb]
  split_ifs <;> refine ⟨rfl, by dsimp only; ring, by dsimp only; ring⟩

theorem idleRotStep_rot_delta (cfg : Config) (t dt : ℝ) (x y : Sprite)
    (hph : x.phaseOffset = y.phaseOffset) (hbb : x.billboard = y.billboard) :
    (idleRotStep cfg t dt x).rotation.y - x.rotation.y =
      (idleRotStep cfg t dt y).rotation.y - y.rotation.y ∧
    (idleRotStep cfg t dt x).rotation.z - x.rotation.z =
      (idleRotStep cfg t dt y).rotation.z - y.rotation.z := by
  unfold idleRotStep
  dsimp only
  rw [hph, hbb]
  split_ifs <;>
    refine ⟨by first | ring | (dsimp only; ring), by first | ring | (dsimp only; ring)⟩

theorem idleZoomStep_scale_eq (cfg : Config) (t : ℝ) (x y : Sprite)
    (hs : x.scale = y.scale) (hh : x.hasBaseScaleVal = y.hasBaseScaleVal)
    (hv : x.baseScaleVal = y.baseScaleVal) (hph : x.phaseOffset = y.phaseOffset)
    (hbb : x.billboard = y.billboard) (hbs : x.baseScale = y.baseScale) :
    (idleZoomStep cfg t x).scale = (idleZoomStep cfg t y).scale := by
  unfold idleZoomStep
  dsimp only
  rw [hh]
  by_cases hc : (cfg.idle_zoom_enabled && y.hasBaseScaleVal) = true
  · rw [if_pos hc, if_pos hc]
    dsimp only
    rw [hv, hph, hbb, hbs]
  · rw [if_neg hc, if_neg hc]
    exact hs

theorem applyNodeAnimations_rot_inactive (cfg : Config) (i : ℕ) (t dt : ℝ) (s : Sprite)
    (h : cfg.node_animation_enabled = false ∨ cfg.node_animation_type ≠ "wave_rotation") :
    (applyNodeAnimations cfg s i t dt).rotation = s.rotation := by
  unfold applyNodeAnimations
  dsimp only
  rcases h with h | h
  · simp [h]
  · split_ifs <;> first
      | rfl
      | (exfalso; apply h; simp_all)

/-- C10: each frame the compositor recomputes a visible sprite's position
and scale from the base state — even with node animation active
(`wave_rotation`) or disabled — so they are independent of the incoming
render transform; rotation is never reset: its per-frame change is a pure
increment independent of the accumulated value, and with the wave-rotation
and idle-rotation layers off the accumulated rotation persists unchanged. -/
theorem frame_reset_position_scale_not_rotation (cfg : Config) (i : ℕ) (t dt : ℝ)
    (s : Sprite) (hvis : s.visible = true) (p sc r : V3) :
    (cfg.node_animation_type = "wave_rotation" →
      (applyNodeAnimations cfg s i t dt).position = s.basePosition ∧
      (applyNodeAnimations cfg s i t dt).scale = uniformV3 s.baseScaleVal) ∧
    (cfg.node_animation_enabled = false →
      (applyNodeAnimations cfg s i t dt).position = s.basePosition ∧
      (applyNodeAnimations cfg s i t dt).scale = uniformV3 s.baseScaleVal) ∧
    (updateSpriteFrame cfg i t dt { s with position := p, scale := sc, rotation := r }).position =
      (updateSpriteFrame cfg i t dt s).position ∧
    (updateSpriteFrame cfg i t dt { s with position := p, scale := sc, rotation := r }).scale =
      (updateSpriteFrame cfg i t dt s).scale ∧
    (updateSpriteFrame cfg i t dt { s with position := p, scale := sc, rotation := r }).rotation.x
      = r.x ∧
    (updateSpriteFrame cfg i t dt
        { s with position := p, scale := sc, rotation := r }).rotation.y - r.y =
      (updateSpriteFrame cfg i t dt s).rotation.y - s.rotation.y ∧
    (updateSpriteFrame cfg i t dt
        { s with position := p, scale := sc, rotation := r }).rotation.z - r.z =
      (updateSpriteFrame cfg i t dt s).rotation.z - s.rotation.z ∧
    ((cfg.node_animation_enabled = false ∨ cfg.node_animation_type ≠ "wave_rotation") →
      cfg.idle_rotation_enabled = false →
      (updateSpriteFrame cfg i t dt s).rotation = s.rotation) := by
  set s' : Sprite := { s with position := p, scale := sc, rotation := r } with hs'
  have hvis' : s'.visible = true := hvis
  set u' : Sprite := applyNodeAnimations cfg s' i t dt with hu'def
  set u : Sprite := applyNodeAnimations cfg s i t dt with hudef
  obtain ⟨hbb', hbp', hbr', hbs', hbv', hhh', hph', hvv'⟩ :=
    applyNodeAnimations_preserved cfg s' i t dt
  obtain ⟨hbb, hbp, hbr, hbs, hbv, hhh, hph, hvv⟩ := applyNodeAnimations_preserved cfg s i t dt
  have hps := applyNodeAnimations_ps_eq cfg i t dt s' s rfl rfl rfl rfl rfl
  have hrotd := applyNodeAnimations_rot_delta cfg i t dt s' s rfl rfl
  have huphase : u'.phaseOffset = u.phaseOffset := by rw [hph', hph]
  have hubill : u'.billboard = u.billboard := by rw [hbb', hbb]
  obtain ⟨rp', rs', rbb', rbs', rbv', rhh', rph', rrx'⟩ := idleRotStep_preserved cfg t dt u'
  obtain ⟨rp, rs, rbb, rbs, rbv, rhh, rph, rrx⟩ := idleRotStep_preserved cfg t dt u
  have hrd := idleRotStep_rot_delta cfg t dt u' u huphase hubill
  have e' : updateSpriteFrame cfg i t dt s' =
      idleZoomStep cfg t (idleRotStep cfg t dt u') := by
    unfold updateSpriteFrame applyIdleAnimations
    rw [hvis', if_pos rfl]
  have e : updateSpriteFrame cfg i t dt s =
      idleZoomStep cfg t (idleRotStep cfg t dt u) := by
    unfold updateSpriteFrame applyIdleAnimations
    rw [hvis, if_pos rfl]
  obtain ⟨zp', zr'⟩ := idleZoomStep_preserved cfg t (idleRotStep cfg t dt u')
  obtain ⟨zp, zr⟩ := idleZoomStep_preserved cfg t (idleRotStep cfg t dt u)
  refine ⟨?_, ?_, ?_, ?_, ?_, ?_, ?_, ?_⟩
  · intro h
    rw [hudef]
    unfold applyNodeAnimations
    dsimp only
    rw [h]
    cases he : cfg.node_animation_enabled <;>
      (simp [he]; try (split_ifs <;> exact ⟨rfl, rfl⟩))
  · intro h
    rw [hudef]
    unfold applyNodeAnimations
    dsimp only
    simp [h]
  · rw [e', e, zp', zp, rp', rp]
    exact hps.1
  · rw [e', e]
    apply idleZoomStep_scale_eq
    · rw [rs', rs]; exact hps.2
    · rw [rhh', rhh, hhh', hhh]
    · rw [rbv', rbv, hbv', hbv]
    · rw [rph', rph, huphase]
    · rw [rbb', rbb, hubill]
    · rw [rbs', rbs, hbs', hbs]
  · rw [e', zr', rrx', hrotd.1]
  · rw [e', e, zr', zr]
    have h1 := hrd.1
    have h2 := hrotd.2.1
    have hsr : s'.rotation.y = r.y := rfl
    rw [hsr] at h2
    linarith
  · rw [e', e, zr', zr]
    have h1 := hrd.2
    have h2 := hrotd.2.2
    have hsr : s'.rotation.z = r.z := rfl
    rw [hsr] at h2
    linarith
  · intro hn hi
    rw [e, zr, idleRotStep_disabled cfg t dt u hi, hudef]
    exact applyNodeAnimations_rot_inactive cfg i t dt s hn

/-- Witness for C10 on a concrete sprite, configuration and overridden
render transform. -/
def movedWitnessSprite : Sprite :=
  { witnessSprite with position := ⟨9, 9, 9⟩, scale := ⟨3, 3, 3⟩, rotation := ⟨0, 0, 7⟩ }

theorem frame_reset_position_scale_not_rotation_witness :
    witnessSprite.visible = true ∧
    (updateSpriteFrame initConfig 0 1 1 movedWitnessSprite).position =
      (updateSpriteFrame initConfig 0 1 1 witnessSprite).position :=
  ⟨rfl, (frame_reset_position_scale_not_rotation initConfig 0 1 1 witnessSprite rfl
    ⟨9, 9, 9⟩ ⟨3, 3, 3⟩ ⟨0, 0, 7⟩).2.2.1⟩

/-! ## C5: layout idempotence -/

/-- The scalar that `setup_sprite_initial_states` leaves in
`base_scale_val`: the existing value when the attribute is present, else the
value derived from the current scale (line 85). -/
noncomputable def effectiveScaleVal (s : Sprite) : ℝ :=
  if s.hasBaseScaleVal then s.baseScaleVal
  else if s.scale.x = s.scale.y then s.scale.x else max s.scale.x s.scale.y

/-- The base transform of a sprite: base position, base z-rotation, base
scale vector and scalar base scale. -/
noncomputable def baseTransform (s : Sprite) : V3 × ℝ × V3 × ℝ :=
  (s.basePosition, s.baseRotationZ, s.baseScale, s.baseScaleVal)

/-- The render-transform data `setup_sprite_initial_states` snapshots into
the base fields. -/
noncomputable def renderTransform (s : Sprite) : V3 × ℝ × V3 × ℝ :=
  (s.position, s.rotation.z, s.scale, effectiveScaleVal s)

theorem baseTransform_setup (phases : ℕ → ℝ) (i : ℕ) (s : Sprite) :
    baseTransform (setupSpriteState phases i s) = renderTransform s := by
  unfold baseTransform renderTransform setupSpriteState effectiveScaleVal
  dsimp only
  split_ifs <;> simp_all

theorem renderTransform_setup (phases : ℕ → ℝ) (i : ℕ) (s : Sprite) :
    renderTransform (setupSpriteState phases i s) = renderTransform s := by
  unfold renderTransform setupSpriteState effectiveScaleVal
  dsimp only
  split_ifs <;> simp_all

/-- Per-index dispatch of the four arrangement callbacks. -/
noncomputable def arrangementStep (lookAt : V3 → V3 → V3) :
    Arrangement → ℕ → Sprite → Sprite
  | .grid numCols numRows cellSize sv => gridStep numCols numRows cellSize sv
  | .swirl n turns radius heightFactor sv => swirlStep lookAt n turns radius heightFactor sv
  | .torus n majorR minorR sv => torusStep lookAt n majorR minorR sv
  | .sphere n sphereR sv => sphereStep lookAt n sphereR sv

theorem applyArrangement_eq (lookAt : V3 → V3 → V3) (arr : Arrangement) (ss : List Sprite) :
    applyArrangement lookAt arr ss = mapIdxF (arrangementStep lookAt arr) ss := by
  cases arr <;> rfl

/-- Every arrangement's per-index action either writes a render transform
fully determined by the index and parameters (a placed sprite) or leaves
the render transform untouched (a hidden sprite). -/
theorem arrangementStep_dichotomy (lookAt : V3 → V3 → V3) (arr : Arrangement) (i : ℕ) :
    (∀ x y : Sprite, renderTransform (arrangementStep lookAt arr i x) =
      renderTransform (arrangementStep lookAt arr i y)) ∨
    (∀ x : Sprite, renderTransform (arrangementStep lookAt arr i x) = renderTransform x) := by
  cases arr with
  | grid numCols numRows cellSize sv =>
    unfold arrangementStep gridStep
    cases h : (gridCells numRows numCols)[i]? with
    | some rc =>
      left; intro x y
      simp [h, renderTransform, effectiveScaleVal]
    | none =>
      right; intro x
      simp [h, renderTransform, effectiveScaleVal]
  | swirl n turns radius heightFactor sv =>
    unfold arrangementStep swirlStep
    by_cases h : i < n
    · left; intro x y
      simp [h, arrange3dPattern, renderTransform, effectiveScaleVal]
    · right; intro x
      simp [h, renderTransform, effectiveScaleVal]
  | torus n majorR minorR sv =>
    unfold arrangementStep torusStep
    by_cases h : i < n
    · left; intro x y
      simp [h, arrange3dPattern, renderTransform, effectiveScaleVal]
    · right; intro x
      simp [h, renderTransform, effectiveScaleVal]
  | sphere n sphereR sv =>
    unfold arrangementStep sphereStep
    by_cases h : i < n
    · left; intro x y
      simp [h, arrange3dPattern, renderTransform, effectiveScaleVal]
    · right; intro x
      simp [h, renderTransform, effectiveScaleVal]

/-- Elementwise view of `_apply_arrangement_and_setup_state`: sprite `i` is
passed through the arrangement step (when among the first `numSprites`) and
then through the base-state refresh. -/
theorem applyArrangementAndSetup_getElem? (lookAt : V3 → V3 → V3) (phases : ℕ → ℝ)
    (arr : Arrangement) (numSprites : ℕ) (ss : List Sprite) (i : ℕ) :
    (applyArrangementAndSetup lookAt phases arr numSprites ss)[i]? =
      ss[i]?.map (fun s => setupSpriteState phases i
        (if i < numSprites then arrangementStep lookAt arr i s else s)) := by
  unfold applyArrangementAndSetup setupSpriteInitialStates
  rw [applyArrangement_eq]
  unfold mapIdxF
  rw [getElem?_mapIdxGo, List.getElem?_append]
  rw [length_mapIdxGo, List.length_take]
  rcases Nat.le_total numSprites ss.length with hns | hns
  · rw [min_eq_left hns]
    by_cases h1 : i < numSprites
    · rw [if_pos h1, getElem?_mapIdxGo, List.getElem?_take, if_pos h1,
        List.getElem?_eq_getElem (by omega : i < ss.length)]
      simp only [Nat.zero_add, Option.map_some']
      rw [if_pos h1]
    · rw [if_neg h1, List.getElem?_drop]
      have harith : numSprites + (i - numSprites) = i := by omega
      rw [harith]
      cases hss : ss[i]? with
      | none => rfl
      | some s =>
        simp only [Option.map_some', Nat.zero_add]
        rw [if_neg h1]
  · rw [min_eq_right hns]
    by_cases h2 : i < ss.length
    · rw [if_pos h2, getElem?_mapIdxGo, List.getElem?_take,
        if_pos (by omega : i < numSprites), List.getElem?_eq_getElem h2]
      simp only [Nat.zero_add, Option.map_some']
      rw [if_pos (by omega : i < numSprites)]
    · rw [if_neg h2, List.getElem?_drop]
      rw [List.getElem?_eq_none (by omega : ss.length ≤ numSprites + (i - ss.length)),
        List.getElem?_eq_none (by omega : ss.length ≤ i)]
      rfl

/-- C5: re-running any arrangement (with the mandatory base-state refresh)
with identical parameters reproduces identical base transforms for every
sprite, whatever phase values the two refreshes draw. -/
theorem layout_idempotent (lookAt : V3 → V3 → V3) (phases1 phases2 : ℕ → ℝ)
    (arr : Arrangement) (numSprites : ℕ) (ss : List Sprite) (i : ℕ) :
    ((applyArrangementAndSetup lookAt phases2 arr numSprites
        (applyArrangementAndSetup lookAt phases1 arr numSprites ss))[i]?).map baseTransform =
      ((applyArrangementAndSetup lookAt phases1 arr numSprites ss)[i]?).map baseTransform := by
  rw [applyArrangementAndSetup_getElem?, applyArrangementAndSetup_getElem?]
  cases hss : ss[i]? with
  | none => rfl
  | some s =>
    simp only [Option.map_some']
    congr 1
    rw [baseTransform_setup, baseTransform_setup]
    by_cases hi : i < numSprites
    · simp only [if_pos hi]
      rcases arrangementStep_dichotomy lookAt arr i with hdet | hpres
      · exact hdet _ _
      · simp only [hpres, renderTransform_setup]
    · simp only [if_neg hi]
      exact renderTransform_setup phases1 i s

/-! ## C6: derived PNG filenames -/

/-- The filename the spec's words prescribe: each code point rendered as
plain lowercase hexadecimal, joined with underscores. -/
def claimedHexFilename (char : List Char) : List Char :=
  "emoji_u".toList ++ List.intercalate ['_'] (char.map (fun c => pyHex c.toNat)) ++ ".png".toList

theorem pyHexGo_mem (fuel n : ℕ) (c : Char) (hc : c ∈ pyHexGo fuel n) :
    ∃ k, k < 16 ∧ c = Nat.digitChar k := by
  induction fuel generalizing n with
  | zero =>
    simp only [pyHexGo, List.mem_singleton] at hc
    exact ⟨n % 16, Nat.mod_lt _ (by norm_num), hc⟩
  | succ fuel ih =>
    simp only [pyHexGo] at hc
    split_ifs at hc with h
    · simp only [List.mem_singleton] at hc
      exact ⟨n, h, hc⟩
    · rcases List.mem_append.mp hc with h1 | h1
      · exact ih (n / 16) h1
      · simp only [List.mem_singleton] at h1
        exact ⟨n % 16, Nat.mod_lt _ (by norm_num), h1⟩

theorem digitChar_ne_U : ∀ k, k < 16 → Nat.digitChar k ≠ 'U' := by decide

theorem digitChar_toLower : ∀ k, k < 16 → Char.toLower (Nat.digitChar k) = Nat.digitChar k := by
  decide

theorem digitChar_ne_zero : ∀ k, k < 16 → 0 < k → Nat.digitChar k ≠ '0' := by decide

theorem pyHexGo_ne_nil (fuel n : ℕ) : pyHexGo fuel n ≠ [] := by
  cases fuel with
  | zero => simp [pyHexGo]
  | succ fuel =>
    simp only [pyHexGo]
    split_ifs <;> simp

theorem pyHexGo_head_ne_zero (fuel : ℕ) :
    ∀ n, 0 < n → n < 16 ^ (fuel + 1) → ∀ d, (pyHexGo fuel n).head? = some d → d ≠ '0' := by
  induction fuel with
  | zero =>
    intro n h0 hlt d hd
    simp only [pyHexGo, List.head?_cons, Option.some_inj] at hd
    have hn : n % 16 = n := Nat.mod_eq_of_lt (by simpa using hlt)
    subst hd
    rw [hn]
    exact digitChar_ne_zero n (by simpa using hlt) h0
  | succ fuel ih =>
    intro n h0 hlt d hd
    simp only [pyHexGo] at hd
    split_ifs at hd with h
    · simp only [List.head?_cons, Option.some_inj] at hd
      subst hd
      exact digitChar_ne_zero n h h0
    · rw [List.head?_append_of_ne_nil _ (pyHexGo_ne_nil fuel (n / 16))] at hd
      have hdiv0 : 0 < n / 16 := Nat.div_pos (by omega) (by norm_num)
      have hdivlt : n / 16 < 16 ^ (fuel + 1) := by
        rw [Nat.div_lt_iff_lt_mul (by norm_num : 0 < 16)]
        calc n < 16 ^ (fuel + 1 + 1) := hlt
        _ = 16 ^ (fuel + 1) * 16 := by ring
      exact ih (n / 16) hdiv0 hdivlt d hd

theorem self_lt_pow16 (n : ℕ) : n < 16 ^ (n + 1) := by
  calc n < 2 ^ n * 1 := by simpa using Nat.lt_two_pow n
  _ ≤ 16 ^ n * 16 := by
      apply Nat.mul_le_mul
      · exact Nat.pow_le_pow_left (by norm_num) n
      · norm_num
  _ = 16 ^ (n + 1) := by ring

theorem takeWhile_append_stop (p : Char → Bool) (l : List Char) (hl : ∀ c ∈ l, p c = true)
    (y : Char) (hy : p y = false) (rest : List Char) :
    (l ++ y :: rest).takeWhile p = l := by
  induction l with
  | nil => simp [List.takeWhile_cons, hy]
  | cons a as ih =>
    have ha : p a = true := hl a (List.mem_cons_self a as)
    simp only [List.cons_append, List.takeWhile_cons, ha]
    rw [ih fun c hc => hl c (List.mem_cons_of_mem a hc)]
    simp

theorem dropWhile_zeros (k : ℕ) (l : List Char)
    (hl : ∀ d, l.head? = some d → d ≠ '0') :
    (List.replicate k '0' ++ l).dropWhile (fun d => d = '0') = l := by
  induction k with
  | zero =>
    simp only [List.replicate, List.nil_append]
    cases l with
    | nil => rfl
    | cons a as =>
      have ha : a ≠ '0' := hl a rfl
      simp [List.dropWhile_cons, ha]
  | succ k ih =>
    simp only [List.replicate, List.cons_append, List.dropWhile_cons]
    simpa using ih

/-- For astral-plane code points the derived filename fragment is exactly
the plain lowercase hex of the code point. -/
theorem emojiHexFragment_astral (c : Char) (h : 0x10000 ≤ c.toNat) :
    emojiHexFragment c = pyHex c.toNat := by
  unfold emojiHexFragment pyUnicodeEscape
  rw [if_pos h]
  have hpadmem : ∀ x ∈ pyHexPad 8 c.toNat, x ≠ 'U' := by
    intro x hx
    unfold pyHexPad at hx
    rcases List.mem_append.mp hx with h1 | h1
    · rw [List.eq_of_mem_replicate h1]
      decide
    · obtain ⟨k, hk, rfl⟩ := pyHexGo_mem _ _ x h1
      exact digitChar_ne_U k hk
  have hafter : afterLastSep 'U' ('\\' :: 'U' :: pyHexPad 8 c.toNat) = pyHexPad 8 c.toNat := by
    unfold afterLastSep
    have hrev : ('\\' :: 'U' :: pyHexPad 8 c.toNat).reverse =
        (pyHexPad 8 c.toNat).reverse ++ 'U' :: ['\\'] := by
      simp
    rw [hrev, takeWhile_append_stop _ _ ?_ 'U' (by decide) _, List.reverse_reverse]
    intro x hx
    have hx' : x ∈ pyHexPad 8 c.toNat := List.mem_reverse.mp hx
    simpa using hpadmem x hx'
  rw [hafter]
  unfold pyHexPad
  rw [dropWhile_zeros _ _ ?head]
  case head =>
    intro d hd
    exact pyHexGo_head_ne_zero c.toNat c.toNat (by omega) (self_lt_pow16 c.toNat) d hd
  apply List.map_congr_left ?_ |>.trans (List.map_id _)
  intro x hx
  obtain ⟨k, hk, rfl⟩ := pyHexGo_mem _ _ x hx
  exact digitChar_toLower k hk

/-- C6 counterexample: for the single-code-point emoji U+263A (a BMP
character), the code derives `emoji_u☺.png` — the raw
`unicode_escape` text — not the claimed plain-hex `emoji_u263a.png`. -/
theorem emojiFilename_bmp_counterexample :
    emojiFilename [Char.ofNat 0x263A] ≠ claimedHexFilename [Char.ofNat 0x263A] ∧
    emojiFilename [Char.ofNat 0x263A] = "emoji_u\\u263a.png".toList := by
  constructor <;> decide

/-- C6 (amended): for every emoji character all of whose code points lie at
or above U+10000, the derived PNG filename is
`emoji_u<hex>_<hex>_....png` with each code point in plain lowercase
hexadecimal (no leading zeros); code points below U+10000 instead
contribute their raw `unicode_escape` spelling. -/
theorem emojiFilename_astral (char : List Char) (h : ∀ c ∈ char, 0x10000 ≤ c.toNat) :
    emojiFilename char = claimedHexFilename char := by
  have hmap : List.map emojiHexFragment char = List.map (fun c => pyHex c.toNat) char :=
    List.map_congr_left (fun c hc => emojiHexFragment_astral c (h c hc))
  unfold emojiFilename claimedHexFilename
  rw [hmap]

/-- Witness for C6's amended theorem at U+1F600. -/
theorem emojiFilename_astral_witness :
    (∀ c ∈ [Char.ofNat 0x1F600], 0x10000 ≤ c.toNat) ∧
    emojiFilename [Char.ofNat 0x1F600] = claimedHexFilename [Char.ofNat 0x1F600] :=
  ⟨by decide, emojiFilename_astral [Char.ofNat 0x1F600] (by decide)⟩

/-! ## C7: graceful degradation on missing assets -/

/-- C7: a missing or unparsable emoji-set file yields an empty filename
list, which makes `load_and_arrange_emojis` fall back to a single red
placeholder sprite (when the pool is empty) instead of failing; a missing
individual texture file makes the loader return `none` and leave the cache
unchanged, and a sprite built or re-textured from `none` is the visible red
fallback. -/
theorem asset_errors_degrade :
    (∀ group : List Char, getEmojiFilenames SetFile.notFound group = []) ∧
    (∀ group : List Char, getEmojiFilenames SetFile.badJson group = []) ∧
    (∀ (lookAt : V3 → V3 → V3) (fsExists : List Char → Bool) (setFile : SetFile)
        (phasesA phasesB : ℕ → ℝ) (st : AppState),
      (setFile = SetFile.notFound ∨ setFile = SetFile.badJson) → st.sprites = [] →
      (loadAndArrangeEmojis lookAt fsExists setFile phasesA phasesB st).sprites =
        [fallbackEntity]) ∧
    fallbackEntity.spriteColor = SpriteColor.red ∧
    (∀ (fsExists : List Char → Bool) (cache : List (List Char)) (fn res : List Char),
      fsExists (texturePath res fn) = false → texturePath res fn ∉ cache →
      loadEmojiTexture fsExists cache fn res = (none, cache)) ∧
    (∀ phase : ℝ, createEmojiSprite phase none = fallbackEntity) ∧
    (∀ (textureRef : Option (List Char)) (s : Sprite), textureRef = none →
      (assignTexture textureRef s).spriteColor = SpriteColor.red) := by
  refine ⟨fun group => rfl, fun group => rfl, ?_, rfl, ?_, fun phase => rfl, ?_⟩
  · intro lookAt fsExists setFile phasesA phasesB st hfile hempty
    rcases hfile with rfl | rfl <;>
      simp [loadAndArrangeEmojis, getEmojiFilenames, hempty]
  · intro fsExists cache fn res hfs hmem
    unfold loadEmojiTexture
    simp [hmem, hfs]
  · intro textureRef s h
    subst h
    rfl

/-- Witness for C7: the initial (empty-pool) state with a missing set file
and an empty file system. -/
theorem asset_errors_degrade_witness :
    ((SetFile.notFound = SetFile.notFound ∨ SetFile.notFound = SetFile.badJson) ∧
      initialAppState.sprites = []) ∧
    (loadAndArrangeEmojis zeroLookAt (fun _ => false) SetFile.notFound zeroPhases zeroPhases
        initialAppState).sprites = [fallbackEntity] :=
  ⟨⟨Or.inl rfl, rfl⟩,
    asset_errors_degrade.2.2.1 zeroLookAt (fun _ => false) SetFile.notFound zeroPhases
      zeroPhases initialAppState (Or.inl rfl) rfl⟩

end Spriter
